import Mathlib

/-!
Shallow embedding of the Document Classification & Analytics frontend
(StatisticalAnalysis.tsx, DocumentList.tsx, FileUpload/DuplicateFileError,
api.ts / errorService) for verification of its specification.

JavaScript numbers are modelled as rationals (ℚ); strings as Lean `String`
(compared and traversed through their character lists); `Record<string, T>`
objects that the code iterates over with `Object.entries` are modelled as
association lists in insertion order, and `Record`s used only for keyed
lookup/update are modelled as total functions with default 0.
-/

namespace DocAnalytics

/-! ## Category registry (StatisticalAnalysis.tsx lines 41-48) -/

/-- The fixed, ordered category list (`VALID_CATEGORIES`). -/
def VALID_CATEGORIES : List String :=
  ["Technical Documentation", "Business Proposal", "Legal Document",
   "Academic Paper", "General Article", "Other"]

/-! ## Documents (api.ts `DocumentType`) -/

/-- A document record as the frontend receives it.  Optional fields are
`Option`; a classification is an association list in the iteration order of
`Object.entries(doc.category_prediction)`. -/
structure Doc where
  filename : Option String
  category_prediction : Option (List (String × ℚ))
  size : Option ℚ
  content : Option String
  deriving Repr, DecidableEq

/-- JS `x || dflt` on an optional string (`""` is falsy). -/
def jsStrOr (o : Option String) (dflt : String) : String :=
  match o with
  | some s => if s = "" then dflt else s
  | none => dflt

/-- JS truthiness of an optional string (`undefined` and `""` are falsy). -/
def truthyStr (o : Option String) : Option String :=
  match o with
  | some s => if s = "" then none else some s
  | none => none

/-- JS truthiness of an optional number id (`undefined` and `0` are falsy). -/
def truthyNat (o : Option Nat) : Option Nat :=
  match o with
  | some n => if n = 0 then none else some n
  | none => none

/-! ## Top-category computation

All three sites (DocumentList.tsx 148-160, fetchTargetsAndCalculateAccuracy
425-433, fetchData 576-608) run the same loop over `Object.entries`:
update the accumulator whenever `confidence > highestConfidence`. -/

/-- One step of the top-category loop: replace the accumulator when the
entry has strictly greater confidence. -/
def topStep (acc e : String × ℚ) : String × ℚ :=
  if acc.2 < e.2 then e else acc

/-- The top-category loop over the entries of a confidence mapping,
starting from a default accumulator (`('Other', 0)` or
`('Unclassified', 0)` depending on the site). -/
def topAux (p : String × ℚ) (l : List (String × ℚ)) : String × ℚ :=
  l.foldl topStep p

/-- Running maximum of the confidence values, seeded with `a`. -/
def maxConf (a : ℚ) (l : List (String × ℚ)) : ℚ :=
  l.foldl (fun x e => max x e.2) a

/-- DocumentList.tsx 148-160: top entry with default `('Unclassified', 0)`,
over all entries of the mapping. -/
def docListTopEntry (pred : List (String × ℚ)) : String × ℚ :=
  topAux ("Unclassified", 0) pred

/-- fetchTargetsAndCalculateAccuracy 424-433: top entry with default
`('Other', 0)`, over all entries of the mapping. -/
def accuracyTopEntry (pred : List (String × ℚ)) : String × ℚ :=
  topAux ("Other", 0) pred

/-- fetchData 576-600 considers only entries whose key is a registered
category (the `VALID_CATEGORIES.includes(category)` guard wraps the
top-category update). -/
def validEntries (pred : List (String × ℚ)) : List (String × ℚ) :=
  pred.filter (fun e => VALID_CATEGORIES.contains e.1)

/-- fetchData 576-608: top entry with default `('Other', 0)` over the
registered-category entries of the mapping. -/
def statsTopEntry (pred : List (String × ℚ)) : String × ℚ :=
  topAux ("Other", 0) (validEntries pred)

/-- The claim's reading of the spec: the argmax of the confidence
distribution with ties broken by Category Registry declaration order
(first-declared category wins).  Written from the spec sentence, for
comparison with the code's loops. -/
def registryArgmax (pred : List (String × ℚ)) : Option String :=
  match (pred.map Prod.snd).max? with
  | none => none
  | some m =>
      (VALID_CATEGORIES.find? (fun c =>
        (pred.find? (fun e => e.1 == c)).any (fun e => e.2 == m))).orElse
        (fun _ => (pred.find? (fun e => e.2 == m)).map Prod.fst)

/-! ## Statistics state (fetchData 555-659) -/

/-- The accumulators of the `data.forEach` loop in fetchData.  The
`Record<string, number>` objects are modelled as total functions (every
registered category is initialised to 0, other keys are read through
`|| 0`). -/
structure StatsState where
  counts : String → ℕ
  totalScores : String → ℚ
  categoryOccurrences : String → ℕ
  totalSizes : String → ℚ
  totalLengths : String → ℚ
  featureVectors : List (List ℚ)
  docCategories : List String
  docFilenames : List String

/-- Initial accumulators (fetchData 556-569). -/
def initStats : StatsState :=
  ⟨fun _ => 0, fun _ => 0, fun _ => 0, fun _ => 0, fun _ => 0, [], [], []⟩

/-- Pointwise update of a rational-valued record. -/
def updQ (m : String → ℚ) (k : String) (v : ℚ) : String → ℚ :=
  fun c => if c = k then v else m c

/-- Pointwise update of a natural-valued record. -/
def updN (m : String → ℕ) (k : String) (v : ℕ) : String → ℕ :=
  fun c => if c = k then v else m c

/-- `doc.category_prediction[cat] || 0` (object lookup; a present value of
0 also reads as 0). -/
def lookupConf (pred : List (String × ℚ)) (cat : String) : ℚ :=
  match pred.find? (fun e => e.1 == cat) with
  | some e => e.2
  | none => 0

/-- fetchData 583-586: the PCA feature vector of a document, one
coordinate per registered category. -/
def featureVectorOf (pred : List (String × ℚ)) : List ℚ :=
  VALID_CATEGORIES.map (fun cat => lookupConf pred cat)

/-- fetchData 588-600: the single pass over `Object.entries` that updates
the top entry, `totalScores` and `categoryOccurrences`, each under the
`VALID_CATEGORIES.includes(category)` guard. -/
def entryLoop (pred : List (String × ℚ)) (top0 : String × ℚ)
    (ts : String → ℚ) (occ : String → ℕ) :
    (String × ℚ) × (String → ℚ) × (String → ℕ) :=
  pred.foldl
    (fun st e =>
      if VALID_CATEGORIES.contains e.1 then
        (topStep st.1 e,
         updQ st.2.1 e.1 (st.2.1 e.1 + e.2),
         updN st.2.2 e.1 (st.2.2 e.1 + 1))
      else st)
    (top0, ts, occ)

/-- fetchData 610-613 / 628-631: `if (doc.size) totalSizes[cat] += doc.size/1024`
(a size of 0 is falsy and skipped). -/
def addSize (m : String → ℚ) (cat : String) (size : Option ℚ) : String → ℚ :=
  match size with
  | some v => if v = 0 then m else updQ m cat (m cat + v / 1024)
  | none => m

/-- fetchData 615-618 / 633-636: `if (doc.content) totalLengths[cat] += content.length`
(an empty string is falsy and skipped). -/
def addLength (m : String → ℚ) (cat : String) (content : Option String) : String → ℚ :=
  match content with
  | some c => if c = "" then m else updQ m cat (m cat + c.length)
  | none => m

/-- fetchData 619-637: the `else` branch taken when no category prediction
is available: the document is tallied under `'Other'` and contributes a
zero feature vector. -/
def statsElseBranch (s : StatsState) (d : Doc) : StatsState :=
  { counts := updN s.counts "Other" (s.counts "Other" + 1),
    totalScores := s.totalScores,
    categoryOccurrences := s.categoryOccurrences,
    totalSizes := addSize s.totalSizes "Other" d.size,
    totalLengths := addLength s.totalLengths "Other" d.content,
    featureVectors := s.featureVectors ++ [VALID_CATEGORIES.map (fun _ => 0)],
    docCategories := s.docCategories ++ ["Other"],
    docFilenames := s.docFilenames ++ [jsStrOr d.filename "Unnamed document"] }

/-- fetchData 576-638: processing of one document inside `data.forEach`. -/
def processDoc (s : StatsState) (d : Doc) : StatsState :=
  match d.category_prediction with
  | some pred =>
      if pred.isEmpty then statsElseBranch s d
      else
        let r := entryLoop pred ("Other", 0) s.totalScores s.categoryOccurrences
        let top := r.1
        { counts := updN s.counts top.1 (s.counts top.1 + 1),
          totalScores := r.2.1,
          categoryOccurrences := r.2.2,
          totalSizes := addSize s.totalSizes top.1 d.size,
          totalLengths := addLength s.totalLengths top.1 d.content,
          featureVectors := s.featureVectors ++ [featureVectorOf pred],
          docCategories := s.docCategories ++ [top.1],
          docFilenames := s.docFilenames ++ [jsStrOr d.filename "Unnamed document"] }
  | none => statsElseBranch s d

/-- The whole statistics pass of fetchData over the fetched documents. -/
def computeStats (docs : List Doc) : StatsState :=
  docs.foldl processDoc initStats

/-- fetchData 645-649: average confidence, guarded by `categoryOccurrences`. -/
def avgScores (s : StatsState) (cat : String) : ℚ :=
  if 0 < s.categoryOccurrences cat then s.totalScores cat / s.categoryOccurrences cat
  else 0

/-- fetchData 652-658: average size (KB), guarded by `counts`. -/
def avgSizes (s : StatsState) (cat : String) : ℚ :=
  if 0 < s.counts cat then s.totalSizes cat / s.counts cat else 0

/-- fetchData 652-658: average content length, guarded by `counts`. -/
def avgLengths (s : StatsState) (cat : String) : ℚ :=
  if 0 < s.counts cat then s.totalLengths cat / s.counts cat else 0

/-- The top category the statistics loop assigns to a document (the value
whose counter is incremented at fetchData 608): `'Other'` when the mapping
is missing or empty, otherwise the loop's top entry over registered
categories. -/
def topOf (d : Doc) : String :=
  match d.category_prediction with
  | some pred => if pred.isEmpty then "Other" else (statsTopEntry pred).1
  | none => "Other"

/-- How many registered-category entries of a document's mapping carry a
given category: the number of times the statistics loop bumps
`categoryOccurrences[cat]` for this document. -/
def docOccurrences (d : Doc) (cat : String) : ℕ :=
  match d.category_prediction with
  | some pred =>
      if pred.isEmpty then 0
      else (validEntries pred).countP (fun e => e.1 == cat)
  | none => 0

/-- The feature vector a document contributes to the PCA input. -/
def fvOf (d : Doc) : List ℚ :=
  match d.category_prediction with
  | some pred =>
      if pred.isEmpty then VALID_CATEGORIES.map (fun _ => 0)
      else featureVectorOf pred
  | none => VALID_CATEGORIES.map (fun _ => 0)

/-! ## Accuracy (fetchTargetsAndCalculateAccuracy 396-474) -/

/-- `filename.replace(/\.[^/.]+$/, "")` on the character list: drop a final
`.ext` whose `ext` is non-empty and contains neither `.` nor `/`. -/
def stripExtChars (s : List Char) : List Char :=
  match s.reverse.findIdx? (fun c => c = '.') with
  | none => s
  | some i =>
      if 0 < i ∧ (s.reverse.take i).all (fun c => c ≠ '/') then
        (s.reverse.drop (i + 1)).reverse
      else s

/-- Extension stripping on strings. -/
def stripExt (s : String) : String :=
  String.mk (stripExtChars s.data)

/-- Find the reference row for a document filename: first target whose
filename, extension stripped, equals the document filename, extension
stripped (lines 416-419, 261-264, 493-497). -/
def matchTarget (targets : List (String × String)) (filename : String) :
    Option (String × String) :=
  targets.find? (fun t => stripExt t.1 == stripExt filename)

/-- Accumulator of the accuracy loop: overall correct predictions, overall
labeled documents, and per-category `{correct, total}` (tracked only for
registered categories, since `categoryStats` is initialised exactly on
`VALID_CATEGORIES`). -/
structure AccState where
  correct : ℕ
  totalLabeled : ℕ
  catCorrect : String → ℕ
  catTotal : String → ℕ

/-- Lines 397-406: zero-initialised accuracy accumulator. -/
def initAcc : AccState := ⟨0, 0, fun _ => 0, fun _ => 0⟩

/-- Lines 409-452: processing of one document in the accuracy loop. -/
def accStep (targets : List (String × String)) (st : AccState) (d : Doc) :
    AccState :=
  match truthyStr d.filename with
  | none => st
  | some fn =>
      match d.category_prediction with
      | none => st
      | some pred =>
          match matchTarget targets fn with
          | none => st
          | some tgt =>
              let predicted := (accuracyTopEntry pred).1
              let tracked := VALID_CATEGORIES.contains tgt.2
              { correct := if predicted = tgt.2 then st.correct + 1 else st.correct,
                totalLabeled := st.totalLabeled + 1,
                catCorrect :=
                  if predicted = tgt.2 ∧ tracked then
                    updN st.catCorrect tgt.2 (st.catCorrect tgt.2 + 1)
                  else st.catCorrect,
                catTotal :=
                  if tracked then updN st.catTotal tgt.2 (st.catTotal tgt.2 + 1)
                  else st.catTotal }

/-- The whole accuracy loop over the fetched documents. -/
def accuracyFold (targets : List (String × String)) (docs : List Doc) : AccState :=
  docs.foldl (accStep targets) initAcc

/-- Lines 455-458: per-category percentage, `correct/total*100` guarded by
`total > 0`. -/
def categoryPercentage (targets : List (String × String)) (docs : List Doc)
    (cat : String) : ℚ :=
  let st := accuracyFold targets docs
  if 0 < st.catTotal cat then (st.catCorrect cat : ℚ) / st.catTotal cat * 100
  else 0

/-- Lines 467-474: overall accuracy, set only when at least one labeled
document was found. -/
def overallAccuracy (targets : List (String × String)) (docs : List Doc) :
    Option ℚ :=
  let st := accuracyFold targets docs
  if 0 < st.totalLabeled then some ((st.correct : ℚ) / st.totalLabeled * 100)
  else none

/-- Whether the accuracy loop counts a document as labeled (truthy
filename, present classification mapping, and a matching reference row). -/
def isMatched (targets : List (String × String)) (d : Doc) : Bool :=
  match truthyStr d.filename with
  | none => false
  | some fn =>
      match d.category_prediction with
      | none => false
      | some _ => (matchTarget targets fn).isSome

/-- The reference label of a matched document (junk `none` otherwise). -/
def refCatOf (targets : List (String × String)) (d : Doc) : Option String :=
  match truthyStr d.filename with
  | none => none
  | some fn => (matchTarget targets fn).map Prod.snd

/-- The predicted label the accuracy loop computes for a document with a
classification mapping. -/
def predCatOf (d : Doc) : String :=
  match d.category_prediction with
  | some pred => (accuracyTopEntry pred).1
  | none => "Other"

/-- A matched document whose predicted label equals its reference label
(the documents the loop counts as correct). -/
def matchedAndCorrect (targets : List (String × String)) (d : Doc) : Bool :=
  isMatched targets d && (some (predCatOf d) == refCatOf targets d)

/-- A matched document whose reference label is `c` (the documents that
contribute to the per-category total of `c`). -/
def inRefCat (targets : List (String × String)) (d : Doc) (c : String) : Bool :=
  isMatched targets d && (some c == refCatOf targets d)

/-- A matched document with reference label `c` and predicted label equal
to the reference (the documents that contribute to the per-category
correct count of `c`). -/
def inRefCatCorrect (targets : List (String × String)) (d : Doc) (c : String) :
    Bool :=
  inRefCat targets d c && (some (predCatOf d) == refCatOf targets d)

/-- Per-category precision as the claim words it when read with the
standard meaning of precision: among matched documents *predicted* as the
category, the fraction predicted correctly.  Written from the spec
sentence, for comparison with the code. -/
def specPrecisionPct (targets : List (String × String)) (docs : List Doc)
    (cat : String) : ℚ :=
  let predicted := docs.filter (fun d => isMatched targets d && predCatOf d == cat)
  let correctHere := predicted.filter (fun d => refCatOf targets d == some cat)
  if 0 < predicted.length then
    (correctHere.length : ℚ) / predicted.length * 100
  else 0

/-! ## PCA (performPCA, lines 61-100) -/

/-- Column mean (step 1, lines 63-70): `mean[j] = Σ data[i][j] / n`. -/
def colMean (data : List (List ℚ)) (j : ℕ) : ℚ :=
  (data.map (fun row => row.getD j 0)).sum / data.length

/-- Mean-centering of one row (lines 72-74). -/
def centeredRow (data : List (List ℚ)) (row : List ℚ) : List ℚ :=
  row.enum.map (fun p => p.2 - colMean data p.1)

/-- Mean-centered matrix. -/
def centeredData (data : List (List ℚ)) : List (List ℚ) :=
  data.map (centeredRow data)

/-- Covariance matrix entry (step 2, lines 77-87):
`Σ centered[k][i]*centered[k][j] / (n - 1)`.  Computed by the source and
then never used by the projection. -/
def covMatrix (data : List (List ℚ)) (i j : ℕ) : ℚ :=
  ((centeredData data).map (fun r => r.getD i 0 * r.getD j 0)).sum /
    ((data.length : ℚ) - 1)

/-- The diagonal of the covariance matrix: per-axis variance. -/
def colVariance (data : List (List ℚ)) (j : ℕ) : ℚ :=
  covMatrix data j j

/-- Step 3 (lines 92-93): the hard-coded "principal components", the
standard basis vectors for indices `k = 0` and `k = 1`. -/
def pcVec (k dims : ℕ) : List ℚ :=
  (List.range dims).map (fun i => if i = k then 1 else 0)

/-- Step 4 (lines 96-99): `point.reduce((sum, val, i) => sum + pc[i]*val, 0)`. -/
def projCoord (pc point : List ℚ) : ℚ :=
  (point.enum.map (fun p => pc.getD p.1 0 * p.2)).sum

/-- performPCA (lines 61-100).  `data[0].length` is modelled with a default
of `[]` on empty input; the empty and one-row cases are the hazards claim
C10 is about and are treated through `performPCAChecked`. -/
def performPCA (data : List (List ℚ)) : List (List ℚ) :=
  let dims := (data.getD 0 []).length
  (centeredData data).map (fun point =>
    [projCoord (pcVec 0 dims) point, projCoord (pcVec 1 dims) point])

/-- performPCA with its two internal hazards made explicit: reading
`data[0]` requires a non-empty matrix, and the covariance divisor
`data.length - 1` must not be zero. -/
def performPCAChecked (data : List (List ℚ)) : Option (List (List ℚ)) :=
  if data.isEmpty then none
  else if data.length = 1 then none
  else some (performPCA data)

/-- fetchData 661-676: the only call site, guarded by
`featureVectors.length >= 2`. -/
def fetchDataPCA (featureVectors : List (List ℚ)) : Option (List (List ℚ)) :=
  if 2 ≤ featureVectors.length then some (performPCA featureVectors) else none

/-- The simple map the refinement claim describes: each row goes to the
pair of its first two mean-centered coordinates.  Written from the claim,
for comparison with `performPCA`. -/
def simpleCenterMap (data : List (List ℚ)) : List (List ℚ) :=
  data.map (fun row =>
    [row.getD 0 0 - colMean data 0, row.getD 1 0 - colMean data 1])

/-! ## Word clouds (preprocessText 194-205, generatePlaceholderWordClouds
208-236, generateWordClouds 239-347, WordCloud 122-126) -/

/-- The stop-word set (lines 180-191), copied in source order (the source
lists `'nor'` twice). -/
def STOP_WORDS : List String :=
  ["a", "an", "the", "and", "but", "or", "for", "nor", "on", "at", "to", "by",
   "from", "of", "in", "this", "that", "these", "those", "with", "as", "is",
   "are", "was", "were", "be", "been", "being", "have", "has", "had", "do",
   "does", "did", "shall", "will", "should", "would", "may", "might", "must",
   "can", "could", "i", "you", "he", "she", "it", "we", "they", "their", "its",
   "our", "your", "my", "his", "her", "who", "what", "where", "which", "when",
   "why", "how", "all", "any", "both", "each", "not", "only", "very", "more",
   "most", "some", "such", "no", "nor", "too", "then", "than", "also", "if",
   "so", "just", "about", "upon", "through", "before", "after", "above", "below",
   "over", "under", "again", "once"]

/-- Lowercasing, character by character (JS `toLowerCase` on the ASCII
range the data uses). -/
def toLowerStr (s : String) : String :=
  String.mk (s.data.map Char.toLower)

/-- A `\w` word character: ASCII letter, digit or underscore. -/
def isWordChar (c : Char) : Bool :=
  c.isAlphanum || c == '_'

/-- A `\s` whitespace character (ASCII range). -/
def isSpaceChar (c : Char) : Bool :=
  c == ' ' || c == '\t' || c == '\n' || c == '\r' || c == '\x0b' || c == '\x0c'

/-- Split a character list into its maximal runs of non-whitespace
characters (the `split(/\s+/)` of the cleaned text; empty fragments are
discarded here and would in any case be dropped by the length filter). -/
def tokenizeAux : List Char → List Char → List (List Char)
  | [], cur => if cur.isEmpty then [] else [cur.reverse]
  | c :: rest, cur =>
      if isSpaceChar c then
        if cur.isEmpty then tokenizeAux rest []
        else cur.reverse :: tokenizeAux rest []
      else tokenizeAux rest (c :: cur)

/-- Tokenization of the cleaned text. -/
def tokenize (l : List Char) : List (List Char) :=
  tokenizeAux l []

/-- preprocessText (lines 194-205): lowercase, replace non-word non-space
characters by spaces, split on whitespace, and drop stop words, words of
length at most 2, and purely numeric words. -/
def preprocessText (text : String) : List String :=
  let cleaned :=
    (toLowerStr text).data.map (fun c => if isWordChar c || isSpaceChar c then c else ' ')
  let words := (tokenize cleaned).map String.mk
  words.filter (fun w =>
    2 < w.length && !(STOP_WORDS.contains w) &&
      !(!w.data.isEmpty && w.data.all Char.isDigit))

/-- Substring test (`String.prototype.includes`). -/
def containsSub (hay needle : List Char) : Bool :=
  (List.range (hay.length + 1)).any (fun i => needle.isPrefixOf (hay.drop i))

/-- generateWordClouds lines 322-328: a token is skipped when it equals the
category name (case-insensitively) or is longer than 3 characters and is
contained in the lowercased category name. -/
def skipWord (category word : String) : Bool :=
  toLowerStr word == toLowerStr category ||
    (containsSub (toLowerStr category).data (toLowerStr word).data && 3 < word.length)

/-- `wordCounts[word] = (wordCounts[word] || 0) + 1` on an association list
in insertion order. -/
def bumpCount (counts : List (String × ℕ)) (w : String) : List (String × ℕ) :=
  if counts.any (fun p => p.1 == w) then
    counts.map (fun p => if p.1 == w then (p.1, p.2 + 1) else p)
  else counts ++ [(w, 1)]

/-- The frequency-count loop of generateWordClouds (lines 320-328). -/
def wordCountsFor (category : String) (words : List String) : List (String × ℕ) :=
  words.foldl (fun counts w => if skipWord category w then counts else bumpCount counts w) []

/-- The count recorded for a word in a count list (`0` when absent). -/
def countValue (counts : List (String × ℕ)) (w : String) : ℕ :=
  ((counts.find? (fun p => p.1 == w)).map Prod.snd).getD 0

/-- Stable insertion into a descending-by-count list: the new element goes
before the first element with a count less than or equal to its own. -/
def insertDescEntry (x : String × ℕ) : List (String × ℕ) → List (String × ℕ)
  | [] => [x]
  | y :: ys => if y.2 ≤ x.2 then x :: y :: ys else y :: insertDescEntry x ys

/-- The stable descending sort `sort((a, b) => b.value - a.value)`
(lines 331-333; JS array sort is stable). -/
def sortDescEntries (l : List (String × ℕ)) : List (String × ℕ) :=
  l.foldr insertDescEntry []

/-- Word-cloud entries for one category from its combined member text
(lines 316-333). -/
def wordCloudFor (category : String) (combinedText : String) : List (String × ℕ) :=
  sortDescEntries (wordCountsFor category (preprocessText combinedText))

/-- The static placeholder vocabularies (lines 213-220). -/
def COMMON_WORDS : List (String × List String) :=
  [("Technical Documentation",
    ["code", "function", "class", "method", "library", "api", "interface",
     "system", "software", "design", "implementation", "documentation",
     "reference", "guide"]),
   ("Business Proposal",
    ["business", "proposal", "project", "client", "budget", "timeline",
     "deliverable", "service", "opportunity", "strategy", "partnership",
     "growth", "market", "solution"]),
   ("Legal Document",
    ["legal", "agreement", "contract", "party", "terms", "conditions",
     "clause", "obligation", "rights", "compliance", "regulation",
     "jurisdiction", "enforcement", "liability"]),
   ("Academic Paper",
    ["research", "study", "analysis", "data", "method", "result",
     "conclusion", "literature", "hypothesis", "theory", "experiment",
     "finding", "publication", "reference"]),
   ("General Article",
    ["article", "information", "topic", "reader", "section", "point",
     "example", "author", "description", "overview", "summary",
     "introduction", "conclusion", "perspective"]),
   ("Other",
    ["document", "content", "information", "section", "page", "text",
     "topic", "review", "description", "analysis", "overview", "summary",
     "introduction", "conclusion"])]

/-- `commonWords[category] || commonWords["Other"]` (line 223). -/
def wordsForCategory (cat : String) : List String :=
  match COMMON_WORDS.find? (fun p => p.1 == cat) with
  | some p => p.2
  | none =>
      match COMMON_WORDS.find? (fun p => p.1 == "Other") with
      | some p => p.2
      | none => []

/-- generatePlaceholderWordClouds (lines 208-236).  `Math.random()` is
modelled by an arbitrary value function `vals` (the source draws each
value in 40..99); the vocabulary itself is static. -/
def generatePlaceholderWordClouds (vals : String → String → ℕ)
    (categories : List String) : List (String × List (String × ℕ)) :=
  categories.map (fun cat =>
    (cat, (wordsForCategory cat).map (fun w => (w, vals cat w))))

/-- `doc.content && doc.content.length > 0`. -/
def hasContent (d : Doc) : Bool :=
  match d.content with
  | some c => 0 < c.length
  | none => false

/-- `categoryDocs[cat].push(doc)`, creating the group on first use
(lines 266-272). -/
def addDocToGroup (groups : List (String × List Doc)) (cat : String) (d : Doc) :
    List (String × List Doc) :=
  if groups.any (fun p => p.1 == cat) then
    groups.map (fun p => if p.1 == cat then (p.1, p.2 ++ [d]) else p)
  else groups ++ [(cat, [d])]

/-- generateWordClouds lines 249-273: group the documents by the reference
category of their filename match. -/
def groupByTarget (targets : List (String × String)) (docs : List Doc) :
    List (String × List Doc) :=
  docs.foldl
    (fun groups d =>
      match truthyStr d.filename with
      | none => groups
      | some fn =>
          match matchTarget targets fn with
          | some tgt => addDocToGroup groups tgt.2 d
          | none => groups)
    []

/-- The default category list of lines 284-287. -/
def DEFAULT_CATEGORIES : List String :=
  ["Technical Documentation", "Business Proposal", "Legal Document",
   "Academic Paper", "General Article", "Other"]

/-- `placeholderWordClouds[category] || []` (lines 311, 337). -/
def lookupCloud (clouds : List (String × List (String × ℕ))) (cat : String) :
    List (String × ℕ) :=
  ((clouds.find? (fun p => p.1 == cat)).map Prod.snd).getD []

/-- `docsWithContent.map(doc => doc.content).join(' ')` (line 316). -/
def joinSpace (l : List String) : String :=
  String.mk (List.intercalate [' '] (l.map String.data))

/-- generateWordClouds (lines 239-347), as a function of the parsed target
rows and the documents passed in (the toast/console side effects carry no
data). -/
def generateWordClouds (vals : String → String → ℕ)
    (targets : List (String × String)) (docs : List Doc) :
    List (String × List (String × ℕ)) :=
  let categoryDocs := groupByTarget targets docs
  if categoryDocs.isEmpty then
    generatePlaceholderWordClouds vals DEFAULT_CATEGORIES
  else
    let ph := generatePlaceholderWordClouds vals (categoryDocs.map Prod.fst)
    if !(docs.any hasContent) then ph
    else
      categoryDocs.map (fun g =>
        let withContent := g.2.filter hasContent
        if withContent.isEmpty then (g.1, lookupCloud ph g.1)
        else
          let combined := joinSpace (withContent.map (fun d => d.content.getD ""))
          let words := wordCloudFor g.1 combined
          (g.1, if words.isEmpty then lookupCloud ph g.1 else words))

/-- WordCloud component (lines 122-126): sort descending by value and keep
the first `maxWords` entries. -/
def displayWords (words : List (String × ℕ)) (maxWords : ℕ) : List (String × ℕ) :=
  (sortDescEntries words).take maxWords

/-! ## Duplicate-upload errors (errorService formatErrorMessage 409 case,
DuplicateFileError component) -/

/-- Error taxonomy of errorService. -/
inductive ErrorCategory where
  | validation | network | authentication | fileProcessing | server | unknown
  deriving Repr, DecidableEq

/-- `details.data.duplicate_id` / `details.data.duplicate_filename`. -/
structure NestedDupData where
  duplicate_id : Option Nat
  duplicate_filename : Option String
  deriving Repr, DecidableEq

/-- The `details` object of an API error, as DuplicateFileError reads it. -/
structure ErrorDetails where
  duplicate_id : Option Nat
  duplicate_filename : Option String
  data : Option NestedDupData
  deriving Repr, DecidableEq

/-- The flat fields of an API error response body. -/
structure ApiErrorBodyCore where
  message : Option String
  error : Option String
  details : Option ErrorDetails
  deriving Repr, DecidableEq

/-- An API error response body; FastAPI may nest the payload inside a
`detail` field (errorService line 186). -/
structure ApiErrorBody where
  detail : Option ApiErrorBodyCore
  message : Option String
  error : Option String
  details : Option ErrorDetails
  deriving Repr, DecidableEq

/-- The `AppError` the caller receives. -/
structure AppError where
  message : String
  category : ErrorCategory
  code : Option String
  details : Option ErrorDetails
  deriving Repr, DecidableEq

/-- `responseData.detail || responseData` (line 186; an object is truthy). -/
def errorDetailOf (b : ApiErrorBody) : ApiErrorBodyCore :=
  match b.detail with
  | some d => d
  | none => ⟨b.message, b.error, b.details⟩

/-- The `details || { duplicate: true }` fallback object carries no
duplicate id or filename. -/
def fallbackDetails : ErrorDetails := ⟨none, none, none⟩

/-- formatErrorMessage, the `case 409` branch (lines 230-236, plus the
common extraction at 183-202 and the trailing 264-267): the error handed
to the caller for a duplicate upload. -/
def formatErrorMessage409 (b : ApiErrorBody) : AppError :=
  let ed := errorDetailOf b
  { message := jsStrOr ed.message "A duplicate resource was detected.",
    category := ErrorCategory.validation,
    code := some (jsStrOr ed.error "DUPLICATE_RESOURCE"),
    details := some (ed.details.getD fallbackDetails) }

/-- DuplicateFileError lines 13-14:
`error.details?.duplicate_id || error.details?.data?.duplicate_id`,
kept at the truthiness level the component tests. -/
def duplicateIdOf (e : AppError) : Option Nat :=
  match e.details with
  | none => none
  | some d => (truthyNat d.duplicate_id).orElse (fun _ => truthyNat (d.data.bind NestedDupData.duplicate_id))

/-- DuplicateFileError line 14, same chain for the filename. -/
def duplicateFilenameOf (e : AppError) : Option String :=
  match e.details with
  | none => none
  | some d => (truthyStr d.duplicate_filename).orElse (fun _ => truthyStr (d.data.bind NestedDupData.duplicate_filename))

/-- DuplicateFileError lines 16-18: the notice is rendered unless the id or
the filename is missing (`if (!duplicateId || !duplicateFilename) return null`). -/
def rendersDuplicateNotice (e : AppError) : Bool :=
  (duplicateIdOf e).isSome && (duplicateFilenameOf e).isSome

/-- Modelled from the spec: the body of the backend HTTP 409 duplicate
response, which is not part of this repository (only the frontend is under
source).  Spec section 4.4: on duplicate "the caller is given the existing
document id and filename", and section 7 describes `DuplicateConflict` as
"a distinct outcome carrying the existing document id/filename". -/
def duplicateConflictBody (existingId : Nat) (existingFilename : String) :
    ApiErrorBody :=
  { detail := none,
    message := some "Duplicate file detected",
    error := some "DUPLICATE_DOCUMENT",
    details := some ⟨some existingId, some existingFilename, none⟩ }

end DocAnalytics

namespace DocAnalytics

/-! ## Theorems.  First, the characterization of the shared top-category
loop: it returns the first entry attaining the running maximum. -/

theorem maxConf_cons (a : ℚ) (e : String × ℚ) (l : List (String × ℚ)) :
    maxConf a (e :: l) = maxConf (max a e.2) l := rfl

theorem le_maxConf (l : List (String × ℚ)) : ∀ a : ℚ, a ≤ maxConf a l := by
  induction l with
  | nil => intro a; simp [maxConf]
  | cons e l ih =>
      intro a
      rw [maxConf_cons]
      exact le_trans (le_max_left a e.2) (ih _)

theorem maxConf_mem {e : String × ℚ} {l : List (String × ℚ)} (h : e ∈ l) :
    ∀ a : ℚ, e.2 ≤ maxConf a l := by
  induction l with
  | nil => cases h
  | cons x l ih =>
      intro a
      rw [maxConf_cons]
      rcases List.mem_cons.mp h with rfl | h2
      · exact le_trans (le_max_right a e.2) (le_maxConf l _)
      · exact ih h2 _

theorem topAux_cons (p e : String × ℚ) (l : List (String × ℚ)) :
    topAux p (e :: l) = topAux (topStep p e) l := rfl

theorem topAux_of_all_le {l : List (String × ℚ)} {p : String × ℚ}
    (h : ∀ x ∈ l, x.2 ≤ p.2) : topAux p l = p := by
  induction l with
  | nil => rfl
  | cons e l ih =>
      have he : e.2 ≤ p.2 := h e (List.mem_cons_self e l)
      rw [topAux_cons, topStep, if_neg (not_lt.mpr he)]
      exact ih (fun x hx => h x (List.mem_cons_of_mem _ hx))

theorem find?_max_isSome {l : List (String × ℚ)} :
    ∀ {a : ℚ}, a < maxConf a l →
      (l.find? (fun e => decide (maxConf a l ≤ e.2))).isSome := by
  induction l with
  | nil => intro a h; simp [maxConf] at h
  | cons e l ih =>
      intro a h
      rw [maxConf_cons] at h
      by_cases hp : maxConf (max a e.2) l ≤ e.2
      · rw [List.find?_cons_of_pos _ (by rw [maxConf_cons]; exact decide_eq_true hp)]
        rfl
      · have he : e.2 < maxConf (max a e.2) l := lt_of_not_le hp
        have ha : max a e.2 < maxConf (max a e.2) l := max_lt h he
        rw [List.find?_cons_of_neg _ (by rw [maxConf_cons]; simpa using hp)]
        have := ih ha
        rw [maxConf_cons]
        exact this

theorem topAux_eq_find {l : List (String × ℚ)} :
    ∀ {p : String × ℚ}, p.2 < maxConf p.2 l →
      topAux p l = (l.find? (fun e => decide (maxConf p.2 l ≤ e.2))).getD p := by
  induction l with
  | nil => intro p h; simp [maxConf] at h
  | cons e l ih =>
      intro p h
      rw [maxConf_cons] at h
      by_cases hpe : p.2 < e.2
      · have hmax : max p.2 e.2 = e.2 := max_eq_right hpe.le
        rw [hmax] at h
        by_cases hM : maxConf e.2 l ≤ e.2
        · have hMe : maxConf e.2 l = e.2 := le_antisymm hM (le_maxConf l e.2)
          have htop : topAux e l = e :=
            topAux_of_all_le (fun x hx => hMe ▸ maxConf_mem hx e.2)
          rw [topAux_cons, topStep, if_pos hpe, htop,
            List.find?_cons_of_pos _
              (by rw [maxConf_cons, hmax]; exact decide_eq_true hM)]
          rfl
        · have he2 : e.2 < maxConf e.2 l := lt_of_not_le hM
          have hih := ih (p := e) he2
          have hsome := find?_max_isSome (l := l) (a := e.2) he2
          obtain ⟨x, hx⟩ := Option.isSome_iff_exists.mp hsome
          rw [List.find?_cons_of_neg _
              (by rw [maxConf_cons, hmax]; simpa using hM),
            maxConf_cons, hmax, topAux_cons, topStep, if_pos hpe, hih, hx]
          rfl
      · have hmax : max p.2 e.2 = p.2 := max_eq_left (not_lt.mp hpe)
        rw [hmax] at h
        have hpred : ¬ maxConf p.2 l ≤ e.2 :=
          not_le.mpr (lt_of_le_of_lt (not_lt.mp hpe) h)
        rw [List.find?_cons_of_neg _
            (by rw [maxConf_cons, hmax]; simpa using hpred),
          maxConf_cons, hmax, topAux_cons, topStep, if_neg hpe]
        exact ih h

end DocAnalytics
namespace DocAnalytics

/-- Claim C1, counterexample.  For the non-empty confidence mapping
`{Business Proposal: 1/2, Technical Documentation: 1/2}` every top-category
site of the code (statistics counts, accuracy comparison, document list)
reports `Business Proposal`, the first entry in the mapping's iteration
order, while the argmax with ties broken by Category Registry declaration
order is `Technical Documentation`, the first-declared of the two: the tie
is not broken by registry order. -/
theorem topCategory_registry_tiebreak_counterexample :
    (statsTopEntry [("Business Proposal", 1/2), ("Technical Documentation", 1/2)]).1
        = "Business Proposal" ∧
    (accuracyTopEntry [("Business Proposal", 1/2), ("Technical Documentation", 1/2)]).1
        = "Business Proposal" ∧
    (docListTopEntry [("Business Proposal", 1/2), ("Technical Documentation", 1/2)]).1
        = "Business Proposal" ∧
    registryArgmax [("Business Proposal", 1/2), ("Technical Documentation", 1/2)]
        = some "Technical Documentation" := by
  refine ⟨?_, ?_, ?_, ?_⟩
  · norm_num [statsTopEntry, topAux, validEntries, topStep, VALID_CATEGORIES]
  · norm_num [accuracyTopEntry, topAux, topStep]
  · norm_num [docListTopEntry, topAux, topStep]
  · simp only [registryArgmax, VALID_CATEGORIES, List.max?, List.find?, List.map]
    norm_num
    simp [List.find?]

/-- Claim C1, amended.  For a document whose confidence mapping has a
positive maximal confidence, the top category reported by each site is the
first entry of the mapping, in the mapping's own iteration order, whose
confidence attains the maximum (for the statistics site, restricted to
registered categories): ties between equal confidences are broken by the
mapping's iteration order, with the earliest entry winning, not by
Category Registry declaration order. -/
theorem topCategory_is_first_max_in_mapping_order
    (pred : List (String × ℚ))
    (h1 : 0 < maxConf 0 pred)
    (h2 : 0 < maxConf 0 (validEntries pred)) :
    docListTopEntry pred
      = (pred.find? (fun e => decide (maxConf 0 pred ≤ e.2))).getD ("Unclassified", 0) ∧
    accuracyTopEntry pred
      = (pred.find? (fun e => decide (maxConf 0 pred ≤ e.2))).getD ("Other", 0) ∧
    statsTopEntry pred
      = ((validEntries pred).find?
          (fun e => decide (maxConf 0 (validEntries pred) ≤ e.2))).getD ("Other", 0) := by
  exact ⟨topAux_eq_find (p := ("Unclassified", 0)) h1,
    topAux_eq_find (p := ("Other", 0)) h1,
    topAux_eq_find (p := ("Other", 0)) h2⟩

/-- Witness for the amended claim C1 at a concrete mapping. -/
theorem topCategory_is_first_max_in_mapping_order_witness :
    docListTopEntry [("Legal Document", 1/4), ("Technical Documentation", 3/4)]
      = ([("Legal Document", (1:ℚ)/4), ("Technical Documentation", 3/4)].find?
          (fun e => decide (maxConf 0 [("Legal Document", 1/4), ("Technical Documentation", 3/4)] ≤ e.2))).getD
          ("Unclassified", 0) ∧
    accuracyTopEntry [("Legal Document", 1/4), ("Technical Documentation", 3/4)]
      = ([("Legal Document", (1:ℚ)/4), ("Technical Documentation", 3/4)].find?
          (fun e => decide (maxConf 0 [("Legal Document", 1/4), ("Technical Documentation", 3/4)] ≤ e.2))).getD
          ("Other", 0) ∧
    statsTopEntry [("Legal Document", 1/4), ("Technical Documentation", 3/4)]
      = ((validEntries [("Legal Document", 1/4), ("Technical Documentation", 3/4)]).find?
          (fun e => decide (maxConf 0 (validEntries [("Legal Document", 1/4), ("Technical Documentation", 3/4)]) ≤ e.2))).getD
          ("Other", 0) :=
  topCategory_is_first_max_in_mapping_order
    [("Legal Document", 1/4), ("Technical Documentation", 3/4)]
    (by norm_num [maxConf])
    (by norm_num [maxConf, validEntries, VALID_CATEGORIES])

end DocAnalytics
namespace DocAnalytics

/-! ## Decomposition of the statistics loop -/

theorem foldl_cond_pair {α β γ : Type} (p : α → Bool)
    (f : β → α → β) (g : γ → α → γ) :
    ∀ (l : List α) (b : β) (c : γ),
      l.foldl (fun st e => if p e then (f st.1 e, g st.2 e) else st) (b, c)
        = (l.foldl (fun x e => if p e then f x e else x) b,
           l.foldl (fun x e => if p e then g x e else x) c) := by
  intro l
  induction l with
  | nil => intro b c; rfl
  | cons e l ih =>
      intro b c
      by_cases hp : p e = true
      · simp only [List.foldl_cons, hp, if_pos]
        exact ih (f b e) (g c e)
      · simp only [List.foldl_cons, hp, if_neg, Bool.false_eq_true, not_false_iff]
        exact ih b c

theorem foldl_cond_filter {α β : Type} (p : α → Bool) (f : β → α → β) :
    ∀ (l : List α) (b : β),
      l.foldl (fun x e => if p e then f x e else x) b = (l.filter p).foldl f b := by
  intro l
  induction l with
  | nil => intro b; rfl
  | cons e l ih =>
      intro b
      by_cases hp : p e = true
      · simp only [List.foldl_cons, hp, if_pos, List.filter_cons_of_pos]
        exact ih (f b e)
      · simp only [List.foldl_cons, hp, if_neg, Bool.false_eq_true, not_false_iff,
          List.filter_cons_of_neg]
        exact ih b

theorem entryLoop_eq (pred : List (String × ℚ)) (top0 : String × ℚ)
    (ts : String → ℚ) (occ : String → ℕ) :
    entryLoop pred top0 ts occ
      = (topAux top0 (validEntries pred),
         (validEntries pred).foldl (fun m e => updQ m e.1 (m e.1 + e.2)) ts,
         (validEntries pred).foldl (fun m e => updN m e.1 (m e.1 + 1)) occ) := by
  have h1 := foldl_cond_pair (fun e : String × ℚ => VALID_CATEGORIES.contains e.1)
    topStep
    (fun (y : (String → ℚ) × (String → ℕ)) e =>
      (updQ y.1 e.1 (y.1 e.1 + e.2), updN y.2 e.1 (y.2 e.1 + 1)))
    pred top0 (ts, occ)
  have h2 := foldl_cond_pair (fun e : String × ℚ => VALID_CATEGORIES.contains e.1)
    (fun (m : String → ℚ) e => updQ m e.1 (m e.1 + e.2))
    (fun (m : String → ℕ) e => updN m e.1 (m e.1 + 1))
    pred ts occ
  show pred.foldl _ (top0, (ts, occ)) = _
  rw [h1, h2]
  rw [foldl_cond_filter, foldl_cond_filter, foldl_cond_filter]
  rfl

theorem scoreFold_apply :
    ∀ (l : List (String × ℚ)) (m : String → ℚ) (c : String),
      (l.foldl (fun m e => updQ m e.1 (m e.1 + e.2)) m) c
        = m c + ((l.filter (fun e => e.1 == c)).map Prod.snd).sum := by
  intro l
  induction l with
  | nil => intro m c; simp
  | cons e l ih =>
      intro m c
      by_cases hc : e.1 = c
      · subst hc
        rw [List.foldl_cons, ih, List.filter_cons_of_pos (by simp)]
        simp [updQ, add_assoc]
      · rw [List.foldl_cons, ih, List.filter_cons_of_neg (by simp [hc])]
        simp [updQ, Ne.symm hc]

theorem occFold_apply :
    ∀ (l : List (String × ℚ)) (m : String → ℕ) (c : String),
      (l.foldl (fun m e => updN m e.1 (m e.1 + 1)) m) c
        = m c + l.countP (fun e => e.1 == c) := by
  intro l
  induction l with
  | nil => intro m c; simp
  | cons e l ih =>
      intro m c
      by_cases hc : e.1 = c
      · subst hc
        rw [List.foldl_cons, ih, List.countP_cons]
        simp [updN]
        omega
      · rw [List.foldl_cons, ih, List.countP_cons]
        simp [updN, hc, Ne.symm hc]

end DocAnalytics
namespace DocAnalytics

theorem processDoc_counts (s : StatsState) (d : Doc) (c : String) :
    (processDoc s d).counts c
      = if topOf d = c then s.counts c + 1 else s.counts c := by
  cases hp : d.category_prediction with
  | none =>
      simp only [processDoc, hp, statsElseBranch, topOf, updN]
      by_cases hc : c = "Other"
      · subst hc; simp
      · simp [hc, Ne.symm hc]
  | some pred =>
      by_cases he : pred.isEmpty
      · simp only [processDoc, hp, he, if_pos, statsElseBranch, topOf, updN]
        by_cases hc : c = "Other"
        · subst hc; simp
        · simp [hc, Ne.symm hc]
      · simp only [processDoc, hp, he, Bool.false_eq_true, if_neg, not_false_iff,
          topOf, updN, entryLoop_eq]
        by_cases hc : c = (statsTopEntry pred).1
        · subst hc; simp [statsTopEntry]
        · simp [statsTopEntry] at hc
          simp [hc, Ne.symm hc, statsTopEntry]

theorem processDoc_occ (s : StatsState) (d : Doc) (c : String) :
    (processDoc s d).categoryOccurrences c
      = s.categoryOccurrences c + docOccurrences d c := by
  cases hp : d.category_prediction with
  | none => simp [processDoc, hp, statsElseBranch, docOccurrences]
  | some pred =>
      by_cases he : pred.isEmpty
      · simp [processDoc, hp, he, statsElseBranch, docOccurrences]
      · simp only [processDoc, hp, he, Bool.false_eq_true, if_neg, not_false_iff,
          entryLoop_eq, docOccurrences]
        rw [occFold_apply]

theorem processDoc_featureVectors (s : StatsState) (d : Doc) :
    (processDoc s d).featureVectors = s.featureVectors ++ [fvOf d] := by
  cases hp : d.category_prediction with
  | none => simp [processDoc, hp, statsElseBranch, fvOf]
  | some pred =>
      by_cases he : pred.isEmpty
      · simp [processDoc, hp, he, statsElseBranch, fvOf]
      · simp [processDoc, hp, he, entryLoop_eq, fvOf]

theorem foldl_processDoc_counts (docs : List Doc) :
    ∀ (s : StatsState) (c : String),
      ((docs.foldl processDoc s).counts c)
        = s.counts c + docs.countP (fun d => topOf d == c) := by
  induction docs with
  | nil => intro s c; simp
  | cons d docs ih =>
      intro s c
      rw [List.foldl_cons, ih, processDoc_counts, List.countP_cons]
      by_cases h : topOf d = c
      · simp [h]; omega
      · simp [h]

theorem foldl_processDoc_occ (docs : List Doc) :
    ∀ (s : StatsState) (c : String),
      ((docs.foldl processDoc s).categoryOccurrences c)
        = s.categoryOccurrences c + (docs.map (fun d => docOccurrences d c)).sum := by
  induction docs with
  | nil => intro s c; simp
  | cons d docs ih =>
      intro s c
      rw [List.foldl_cons, ih, processDoc_occ, List.map_cons, List.sum_cons]
      omega

theorem foldl_processDoc_featureVectors (docs : List Doc) :
    ∀ (s : StatsState),
      (docs.foldl processDoc s).featureVectors
        = s.featureVectors ++ docs.map fvOf := by
  induction docs with
  | nil => intro s; simp
  | cons d docs ih =>
      intro s
      rw [List.foldl_cons, ih, processDoc_featureVectors]
      simp

theorem computeStats_counts (docs : List Doc) (c : String) :
    (computeStats docs).counts c = docs.countP (fun d => topOf d == c) := by
  have h := foldl_processDoc_counts docs initStats c
  simpa [computeStats, initStats] using h

theorem computeStats_occ (docs : List Doc) (c : String) :
    (computeStats docs).categoryOccurrences c
      = (docs.map (fun d => docOccurrences d c)).sum := by
  have h := foldl_processDoc_occ docs initStats c
  simpa [computeStats, initStats] using h

theorem computeStats_featureVectors (docs : List Doc) :
    (computeStats docs).featureVectors = docs.map fvOf := by
  have h := foldl_processDoc_featureVectors docs initStats
  simpa [computeStats, initStats] using h

end DocAnalytics
namespace DocAnalytics

/-- Claim C2, counterexample. -/
theorem computeStatistics_zero_match_avg_counterexample :
    (computeStats [⟨some "a.txt",
        some [("Technical Documentation", 3/5), ("Business Proposal", 2/5)],
        some 1024, some "ab"⟩]).counts "Business Proposal" = 0 ∧
    avgScores (computeStats [⟨some "a.txt",
        some [("Technical Documentation", 3/5), ("Business Proposal", 2/5)],
        some 1024, some "ab"⟩]) "Business Proposal" = 2/5 := by
  constructor
  · simp [computeStats, processDoc, entryLoop, initStats, updQ, updN,
      topStep, validEntries, VALID_CATEGORIES, addSize, addLength,
      statsElseBranch, List.foldl, List.filter]
    norm_num
    decide
  · simp [avgScores, computeStats, processDoc, entryLoop, initStats, updQ,
      updN, topStep, validEntries, VALID_CATEGORIES, addSize, addLength,
      statsElseBranch, List.foldl, List.filter]

/-- Claim C5, counterexample. -/
theorem missing_classification_not_skipped_counterexample :
    (computeStats [⟨some "x.pdf", none, some 2048, none⟩]).counts "Other" = 1 ∧
    avgSizes (computeStats [⟨some "x.pdf", none, some 2048, none⟩]) "Other" = 2 ∧
    (computeStats [⟨some "x.pdf", none, some 2048, none⟩]).featureVectors
      = [[0, 0, 0, 0, 0, 0]] := by
  refine ⟨?_, ?_, ?_⟩
  · norm_num [computeStats, processDoc, initStats, updN, addSize, addLength,
      statsElseBranch, List.foldl]
  · norm_num [avgSizes, computeStats, processDoc, initStats, updN, updQ,
      addSize, addLength, statsElseBranch, List.foldl]
  · norm_num [computeStats, processDoc, initStats, updN, addSize, addLength,
      statsElseBranch, List.foldl, VALID_CATEGORIES]


/-- Claim C2, amended.  For every document set the statistics loop records,
per category, the count of documents whose top category matches, and each
average is division-guarded: the size and length averages are taken over
the documents whose top category matches and are 0 when that count is 0,
while the confidence average is taken over all documents whose mapping
mentions the category among its registered entries (`categoryOccurrences`)
and is 0 when no mapping mentions it; on the empty document set every
count and every average is 0. -/
theorem computeStatistics_counts_and_guarded_averages (docs : List Doc) (cat : String) :
    ((computeStats []).counts cat = 0 ∧ avgScores (computeStats []) cat = 0 ∧
      avgSizes (computeStats []) cat = 0 ∧ avgLengths (computeStats []) cat = 0) ∧
    (computeStats docs).counts cat = docs.countP (fun d => topOf d == cat) ∧
    (computeStats docs).categoryOccurrences cat
      = (docs.map (fun d => docOccurrences d cat)).sum ∧
    (avgScores (computeStats docs) cat = 0 ∨
      0 < (computeStats docs).categoryOccurrences cat) ∧
    ((avgSizes (computeStats docs) cat = 0 ∧ avgLengths (computeStats docs) cat = 0) ∨
      0 < (computeStats docs).counts cat) := by
  refine ⟨⟨rfl, ?_, ?_, ?_⟩, computeStats_counts docs cat, computeStats_occ docs cat, ?_, ?_⟩
  · simp [avgScores, computeStats, initStats]
  · simp [avgSizes, computeStats, initStats]
  · simp [avgLengths, computeStats, initStats]
  · by_cases h : 0 < (computeStats docs).categoryOccurrences cat
    · exact Or.inr h
    · exact Or.inl (by simp [avgScores, h])
  · by_cases h : 0 < (computeStats docs).counts cat
    · exact Or.inr h
    · exact Or.inl ⟨by simp [avgSizes, h], by simp [avgLengths, h]⟩

/-- Claim C5, amended.  A document with a missing classification mapping is
not skipped by the statistics loop: it is tallied under the `'Other'`
category (count, size total, length total), contributes a zero feature
vector to the PCA input, and leaves every other count and the confidence
accumulators unchanged; no skipped-record count exists in the computed
report. -/
theorem missing_classification_counted_under_Other (s : StatsState) (d : Doc)
    (h : d.category_prediction = none) :
    (processDoc s d).counts "Other" = s.counts "Other" + 1 ∧
    (∀ c, c ≠ "Other" → (processDoc s d).counts c = s.counts c) ∧
    (processDoc s d).featureVectors
      = s.featureVectors ++ [VALID_CATEGORIES.map (fun _ => 0)] ∧
    (processDoc s d).docCategories = s.docCategories ++ ["Other"] ∧
    (processDoc s d).totalScores = s.totalScores ∧
    (processDoc s d).categoryOccurrences = s.categoryOccurrences := by
  refine ⟨?_, ?_, ?_, ?_, ?_, ?_⟩
  · simp [processDoc, h, statsElseBranch, updN]
  · intro c hc
    simp [processDoc, h, statsElseBranch, updN, hc]
  · simp [processDoc, h, statsElseBranch]
  · simp [processDoc, h, statsElseBranch]
  · simp [processDoc, h, statsElseBranch]
  · simp [processDoc, h, statsElseBranch]

/-- Witness for the amended claim C5 at a concrete state and document. -/
theorem missing_classification_counted_under_Other_witness :
    (processDoc initStats ⟨some "x.pdf", none, some 2048, none⟩).counts "Other"
        = initStats.counts "Other" + 1 ∧
    (∀ c, c ≠ "Other" →
      (processDoc initStats ⟨some "x.pdf", none, some 2048, none⟩).counts c
        = initStats.counts c) ∧
    (processDoc initStats ⟨some "x.pdf", none, some 2048, none⟩).featureVectors
      = initStats.featureVectors ++ [VALID_CATEGORIES.map (fun _ => 0)] ∧
    (processDoc initStats ⟨some "x.pdf", none, some 2048, none⟩).docCategories
      = initStats.docCategories ++ ["Other"] ∧
    (processDoc initStats ⟨some "x.pdf", none, some 2048, none⟩).totalScores
      = initStats.totalScores ∧
    (processDoc initStats ⟨some "x.pdf", none, some 2048, none⟩).categoryOccurrences
      = initStats.categoryOccurrences :=
  missing_classification_counted_under_Other initStats
    ⟨some "x.pdf", none, some 2048, none⟩ rfl

end DocAnalytics
namespace DocAnalytics

/-! ## PCA: the hard-coded projection picks out raw coordinates 0 and 1 -/

theorem proj_enumFrom :
    ∀ (xs pc : List ℚ) (n : ℕ),
      ((List.enumFrom n xs).map (fun p => pc.getD p.1 0 * p.2)).sum
        = ((xs.enum).map (fun p => (pc.drop n).getD p.1 0 * p.2)).sum := by
  intro xs
  induction xs with
  | nil => intro pc n; simp [List.enum]
  | cons x xs ih =>
      intro pc n
      rw [List.enumFrom_cons, List.map_cons, List.sum_cons, ih pc (n + 1),
        List.enum_cons, List.map_cons, List.sum_cons, ih (pc.drop n) 1,
        List.drop_drop]
      congr 1
      rw [List.getD_eq_getElem?_getD, List.getD_eq_getElem?_getD,
        List.getElem?_drop]
      simp

theorem projCoord_cons (pc : List ℚ) (x : ℚ) (xs : List ℚ) :
    projCoord pc (x :: xs) = pc.getD 0 0 * x + projCoord (pc.drop 1) xs := by
  show ((List.enumFrom 0 (x :: xs)).map (fun p => pc.getD p.1 0 * p.2)).sum = _
  rw [List.enumFrom_cons, List.map_cons, List.sum_cons, proj_enumFrom xs pc 1]
  rfl

theorem proj_of_getD_zero :
    ∀ (xs pc : List ℚ), (∀ i, pc.getD i 0 = 0) → projCoord pc xs = 0 := by
  intro xs
  induction xs with
  | nil => intro pc _; simp [projCoord, List.enum]
  | cons x xs ih =>
      intro pc h
      rw [projCoord_cons, h 0, zero_mul, zero_add]
      refine ih _ (fun i => ?_)
      rw [List.getD_eq_getElem?_getD, List.getElem?_drop]
      have h2 := h (1 + i)
      rwa [List.getD_eq_getElem?_getD] at h2

theorem proj_pcVec :
    ∀ (point : List ℚ) (k dims : ℕ), point.length ≤ dims →
      projCoord (pcVec k dims) point = point.getD k 0 := by
  intro point
  induction point with
  | nil => intro k dims _; simp [projCoord, List.enum]
  | cons x xs ih =>
      intro k dims h
      match dims with
      | 0 => simp at h
      | d + 1 =>
          have hx : xs.length ≤ d := by simpa using h
          have hpc : pcVec k (d + 1)
              = (if 0 = k then (1:ℚ) else 0)
                :: (List.range d).map (fun i => if i.succ = k then (1:ℚ) else 0) := by
            rw [pcVec, List.range_succ_eq_map, List.map_cons, List.map_map]
            rfl
          rw [projCoord_cons, hpc]
          match k with
          | 0 =>
              have ht : (List.range d).map (fun i => if i.succ = 0 then (1:ℚ) else 0)
                  = (List.range d).map (fun _ => (0:ℚ)) :=
                List.map_congr_left (fun i _ => by simp)
              simp only [List.getD_cons_zero, List.drop_one, List.tail_cons, ht]
              rw [proj_of_getD_zero xs _ (fun i => ?_)]
              · simp
              · rw [List.getD_eq_getElem?_getD, List.getElem?_map]
                cases (List.range d)[i]? <;> simp
          | k' + 1 =>
              have ht : (List.range d).map (fun i => if i.succ = k'.succ then (1:ℚ) else 0)
                  = pcVec k' d :=
                List.map_congr_left (fun i _ => by simp)
              simp only [List.getD_cons_zero, List.drop_one, List.tail_cons, ht]
              rw [ih k' d hx]
              simp


theorem centeredRow_length (data : List (List ℚ)) (row : List ℚ) :
    (centeredRow data row).length = row.length := by
  simp [centeredRow, List.enum_length]

theorem centeredRow_getD (data : List (List ℚ)) (row : List ℚ) (k : ℕ) :
    (centeredRow data row).getD k 0
      = if k < row.length then row.getD k 0 - colMean data k else 0 := by
  rw [centeredRow, List.getD_eq_getElem?_getD, List.getElem?_map,
    List.getElem?_enum]
  by_cases hk : k < row.length
  · rw [List.getElem?_eq_getElem hk, if_pos hk, List.getD_eq_getElem?_getD,
      List.getElem?_eq_getElem hk]
    rfl
  · rw [List.getElem?_eq_none (le_of_not_lt hk), if_neg hk]
    rfl

theorem colMean_zero (data : List (List ℚ)) (k : ℕ)
    (h : ∀ r ∈ data, r.length ≤ k) : colMean data k = 0 := by
  rw [colMean,
    List.map_congr_left (fun r hr => List.getD_eq_default r (0:ℚ) (h r hr))]
  simp

/-- Claim C9.  On every rectangular input matrix, performPCA is
extensionally the map sending each row to the pair of its first two
mean-centered coordinates; in particular the output never depends on the
covariance matrix the source computes (the right-hand side makes no
reference to it). -/
theorem performPCA_eq_simpleCenterMap (data : List (List ℚ))
    (hrect : ∀ row ∈ data, row.length = (data.getD 0 []).length) :
    performPCA data = simpleCenterMap data := by
  rw [performPCA, simpleCenterMap, centeredData, List.map_map]
  refine List.map_congr_left (fun row hrow => ?_)
  have hlen : row.length = (data.getD 0 []).length := hrect row hrow
  have coord : ∀ k : ℕ,
      projCoord (pcVec k (data.getD 0 []).length) (centeredRow data row)
        = row.getD k 0 - colMean data k := by
    intro k
    rw [proj_pcVec _ k _ (by rw [centeredRow_length, hlen]), centeredRow_getD]
    by_cases hk : k < row.length
    · rw [if_pos hk]
    · rw [if_neg hk, List.getD_eq_default _ _ (le_of_not_lt hk),
        colMean_zero data k
          (fun r hr => by rw [hrect r hr, ← hlen]; exact le_of_not_lt hk)]
      simp
  show [projCoord _ (centeredRow data row), projCoord _ (centeredRow data row)] = _
  rw [coord 0, coord 1]

/-- Witness for claim C9 at a concrete 2-by-2 matrix. -/
theorem performPCA_eq_simpleCenterMap_witness :
    performPCA [[1, 2], [3, 4]] = simpleCenterMap [[1, 2], [3, 4]] :=
  performPCA_eq_simpleCenterMap [[1, 2], [3, 4]]
    (by
      intro row hrow
      simp only [List.mem_cons, List.not_mem_nil, or_false] at hrow
      rcases hrow with rfl | rfl <;> simp)

/-- Claim C4, counterexample.  In the matrix [[0,0,0],[0,0,2]] the only
axis with positive variance is axis 2 (variance 2; axes 0 and 1 have
variance 0), and the first row's mean-centered coordinate along axis 2 is
-1; yet performPCA returns [0,0] for every row: the projection does not use
the two highest-variance raw axes, it uses raw axes 0 and 1 regardless of
variance. -/
theorem performPCA_highest_variance_counterexample :
    performPCA [[0, 0, 0], [0, 0, 2]] = [[0, 0], [0, 0]] ∧
    colVariance [[0, 0, 0], [0, 0, 2]] 2 = 2 ∧
    colVariance [[0, 0, 0], [0, 0, 2]] 0 = 0 ∧
    colVariance [[0, 0, 0], [0, 0, 2]] 1 = 0 ∧
    (centeredData [[0, 0, 0], [0, 0, 2]]).getD 0 [] = [0, 0, -1] := by
  refine ⟨?_, ?_, ?_, ?_, ?_⟩ <;>
    norm_num [performPCA, centeredData, centeredRow, colMean, colVariance,
      covMatrix, projCoord, pcVec, List.enum, List.enumFrom, List.range,
      List.range.loop]

/-- Claim C4, amended.  performPCA builds the document-by-category matrix
row by row, mean-centers the columns, and projects each row onto the raw
axes with indices 0 and 1 (the first two mean-centered coordinates),
regardless of the variance of the axes, in place of true eigenvector
decomposition of the covariance matrix. -/
theorem performPCA_projects_on_first_two_axes (data : List (List ℚ))
    (hrect : ∀ row ∈ data, row.length = (data.getD 0 []).length) :
    performPCA data
      = (centeredData data).map (fun p => [p.getD 0 0, p.getD 1 0]) := by
  rw [performPCA, centeredData, List.map_map, List.map_map]
  refine List.map_congr_left (fun row hrow => ?_)
  have hlen : (centeredRow data row).length ≤ (data.getD 0 []).length := by
    rw [centeredRow_length, hrect row hrow]
  show [projCoord _ (centeredRow data row), projCoord _ (centeredRow data row)]
      = [(centeredRow data row).getD 0 0, (centeredRow data row).getD 1 0]
  rw [proj_pcVec _ 0 _ hlen, proj_pcVec _ 1 _ hlen]

/-- Witness for the amended claim C4 at a concrete 2-by-3 matrix. -/
theorem performPCA_projects_on_first_two_axes_witness :
    performPCA [[0, 0, 0], [0, 0, 2]]
      = (centeredData [[0, 0, 0], [0, 0, 2]]).map (fun p => [p.getD 0 0, p.getD 1 0]) :=
  performPCA_projects_on_first_two_axes [[0, 0, 0], [0, 0, 2]]
    (by
      intro row hrow
      simp only [List.mem_cons, List.not_mem_nil, or_false] at hrow
      rcases hrow with rfl | rfl <;> simp)

/-- Claim C10.  performPCA reads data[0] and divides by one less than the
row count without internal guards, but the only call site runs it solely
under the featureVectors.length >= 2 check; under that precondition the
empty-matrix access and the zero divisor are ruled out and the guarded
variant agrees with the unguarded code.  The statistics loop pushes
exactly one feature vector per document, so the check is a check on the
document count. -/
theorem pca_call_site_precondition (fv : List (List ℚ)) (h : 2 ≤ fv.length) :
    fv ≠ [] ∧ fv.length - 1 ≠ 0 ∧
    performPCAChecked fv = some (performPCA fv) ∧
    fetchDataPCA fv = performPCAChecked fv ∧
    (∀ docs : List Doc, (computeStats docs).featureVectors.length = docs.length) := by
  have hne : fv ≠ [] := by
    intro hfv; rw [hfv] at h; simp at h
  have hemp : fv.isEmpty = false := by
    cases fv with
    | nil => exact absurd rfl hne
    | cons a l => rfl
  have h1 : ¬ fv.length = 1 := by omega
  refine ⟨hne, by omega, ?_, ?_, ?_⟩
  · simp [performPCAChecked, hemp, h1]
  · simp [fetchDataPCA, performPCAChecked, h, hemp, h1]
  · intro docs
    rw [computeStats_featureVectors, List.length_map]

/-- Witness for claim C10 at a concrete feature-vector list. -/
theorem pca_call_site_precondition_witness :
    ([[0, 0], [1, 1]] : List (List ℚ)) ≠ [] ∧
    ([[0, 0], [1, 1]] : List (List ℚ)).length - 1 ≠ 0 ∧
    performPCAChecked [[0, 0], [1, 1]] = some (performPCA [[0, 0], [1, 1]]) ∧
    fetchDataPCA [[0, 0], [1, 1]] = performPCAChecked [[0, 0], [1, 1]] ∧
    (∀ docs : List Doc, (computeStats docs).featureVectors.length = docs.length) :=
  pca_call_site_precondition [[0, 0], [1, 1]] (by norm_num)

end DocAnalytics
namespace DocAnalytics

/-! ## Accuracy loop characterization -/

theorem accStep_totalLabeled (targets : List (String × String)) (st : AccState)
    (d : Doc) :
    (accStep targets st d).totalLabeled
      = st.totalLabeled + (if isMatched targets d then 1 else 0) := by
  cases htr : truthyStr d.filename with
  | none => simp [accStep, isMatched, htr]
  | some fn =>
      cases hp : d.category_prediction with
      | none => simp [accStep, isMatched, htr, hp]
      | some pred =>
          cases hm : matchTarget targets fn with
          | none => simp [accStep, isMatched, htr, hp, hm]
          | some tgt => simp [accStep, isMatched, htr, hp, hm]

theorem accStep_correct (targets : List (String × String)) (st : AccState)
    (d : Doc) :
    (accStep targets st d).correct
      = st.correct + (if matchedAndCorrect targets d then 1 else 0) := by
  cases htr : truthyStr d.filename with
  | none => simp [accStep, matchedAndCorrect, isMatched, htr]
  | some fn =>
      cases hp : d.category_prediction with
      | none => simp [accStep, matchedAndCorrect, isMatched, htr, hp]
      | some pred =>
          cases hm : matchTarget targets fn with
          | none => simp [accStep, matchedAndCorrect, isMatched, htr, hp, hm]
          | some tgt =>
              simp [accStep, matchedAndCorrect, isMatched, refCatOf, predCatOf,
                htr, hp, hm]
              by_cases hpred : (accuracyTopEntry pred).1 = tgt.2
              · simp [hpred]
              · simp [hpred]

theorem accStep_catTotal (targets : List (String × String)) (st : AccState)
    (d : Doc) (c : String) (hc : VALID_CATEGORIES.contains c = true) :
    (accStep targets st d).catTotal c
      = st.catTotal c + (if inRefCat targets d c then 1 else 0) := by
  cases htr : truthyStr d.filename with
  | none => simp [accStep, inRefCat, isMatched, htr]
  | some fn =>
      cases hp : d.category_prediction with
      | none => simp [accStep, inRefCat, isMatched, htr, hp]
      | some pred =>
          cases hm : matchTarget targets fn with
          | none => simp [accStep, inRefCat, isMatched, htr, hp, hm]
          | some tgt =>
              simp [accStep, inRefCat, isMatched, refCatOf, htr, hp, hm]
              by_cases hceq : c = tgt.2
              · subst hceq
                have hc2 : tgt.2 ∈ VALID_CATEGORIES := by simpa using hc
                simp [hc2, updN]
              · split <;> simp [updN, hceq]

theorem accStep_catCorrect (targets : List (String × String)) (st : AccState)
    (d : Doc) (c : String) (hc : VALID_CATEGORIES.contains c = true) :
    (accStep targets st d).catCorrect c
      = st.catCorrect c + (if inRefCatCorrect targets d c then 1 else 0) := by
  cases htr : truthyStr d.filename with
  | none => simp [accStep, inRefCatCorrect, inRefCat, isMatched, htr]
  | some fn =>
      cases hp : d.category_prediction with
      | none => simp [accStep, inRefCatCorrect, inRefCat, isMatched, htr, hp]
      | some pred =>
          cases hm : matchTarget targets fn with
          | none => simp [accStep, inRefCatCorrect, inRefCat, isMatched, htr, hp, hm]
          | some tgt =>
              simp [accStep, inRefCatCorrect, inRefCat, isMatched, refCatOf,
                predCatOf, htr, hp, hm]
              by_cases hceq : c = tgt.2
              · subst hceq
                have hc2 : tgt.2 ∈ VALID_CATEGORIES := by simpa using hc
                by_cases hpred : (accuracyTopEntry pred).1 = tgt.2
                · simp [hpred, hc2, updN]
                · simp [hpred, hc2]
              · split <;> simp [updN, hceq]

theorem accFold_totalLabeled (targets : List (String × String)) (docs : List Doc) :
    ∀ st : AccState,
      (docs.foldl (accStep targets) st).totalLabeled
        = st.totalLabeled + docs.countP (fun d => isMatched targets d) := by
  induction docs with
  | nil => intro st; simp
  | cons d docs ih =>
      intro st
      rw [List.foldl_cons, ih, accStep_totalLabeled, List.countP_cons]
      by_cases h : isMatched targets d <;> simp [h] <;> omega

theorem accFold_correct (targets : List (String × String)) (docs : List Doc) :
    ∀ st : AccState,
      (docs.foldl (accStep targets) st).correct
        = st.correct + docs.countP (fun d => matchedAndCorrect targets d) := by
  induction docs with
  | nil => intro st; simp
  | cons d docs ih =>
      intro st
      rw [List.foldl_cons, ih, accStep_correct, List.countP_cons]
      by_cases h : matchedAndCorrect targets d <;> simp [h] <;> omega

theorem accFold_catTotal (targets : List (String × String)) (docs : List Doc)
    (c : String) (hc : VALID_CATEGORIES.contains c = true) :
    ∀ st : AccState,
      (docs.foldl (accStep targets) st).catTotal c
        = st.catTotal c + docs.countP (fun d => inRefCat targets d c) := by
  induction docs with
  | nil => intro st; simp
  | cons d docs ih =>
      intro st
      rw [List.foldl_cons, ih, accStep_catTotal targets st d c hc,
        List.countP_cons]
      by_cases h : inRefCat targets d c <;> simp [h] <;> omega

theorem accFold_catCorrect (targets : List (String × String)) (docs : List Doc)
    (c : String) (hc : VALID_CATEGORIES.contains c = true) :
    ∀ st : AccState,
      (docs.foldl (accStep targets) st).catCorrect c
        = st.catCorrect c + docs.countP (fun d => inRefCatCorrect targets d c) := by
  induction docs with
  | nil => intro st; simp
  | cons d docs ih =>
      intro st
      rw [List.foldl_cons, ih, accStep_catCorrect targets st d c hc,
        List.countP_cons]
      by_cases h : inRefCatCorrect targets d c <;> simp [h] <;> omega

/-- Claim C3, amended.  The accuracy computation matches each document to
its reference row by filename with the last extension stripped (so two
filenames with equal stripped forms match the same row), counts as labeled
the documents with a truthy filename, a present classification mapping and
a matching row, and computes the overall accuracy as correct/total over
those matched documents; the per-category figure, however, is grouped by
the documents *reference* label (correct/total among matched documents
whose reference label is the category, i.e. per-category recall), not
precision over the predicted labels. -/
theorem accuracy_stripped_filename_and_reference_grouping
    (targets : List (String × String)) (docs : List Doc) (cat : String)
    (hcat : VALID_CATEGORIES.contains cat = true) :
    (∀ fn fn', stripExt fn = stripExt fn' →
        matchTarget targets fn = matchTarget targets fn') ∧
    overallAccuracy targets docs
      = (if 0 < docs.countP (fun d => isMatched targets d) then
           some ((docs.countP (fun d => matchedAndCorrect targets d) : ℚ)
             / (docs.countP (fun d => isMatched targets d) : ℚ) * 100)
         else none) ∧
    categoryPercentage targets docs cat
      = (if 0 < docs.countP (fun d => inRefCat targets d cat) then
           (docs.countP (fun d => inRefCatCorrect targets d cat) : ℚ)
             / (docs.countP (fun d => inRefCat targets d cat) : ℚ) * 100
         else 0) := by
  refine ⟨?_, ?_, ?_⟩
  · intro fn fn' h
    unfold matchTarget
    congr 1
    funext t
    rw [h]
  · simp only [overallAccuracy, accuracyFold]
    rw [accFold_totalLabeled, accFold_correct]
    simp [initAcc]
  · simp only [categoryPercentage, accuracyFold]
    rw [accFold_catTotal targets docs cat hcat,
      accFold_catCorrect targets docs cat hcat]
    simp [initAcc]

/-- Witness for the amended claim C3 on a concrete target set and corpus. -/
theorem accuracy_stripped_filename_and_reference_grouping_witness :
    (∀ fn fn', stripExt fn = stripExt fn' →
        matchTarget [("d1", "Business Proposal")] fn
          = matchTarget [("d1", "Business Proposal")] fn') ∧
    overallAccuracy [("d1", "Business Proposal")]
        [⟨some "d1.txt", some [("Business Proposal", 1)], none, none⟩]
      = (if 0 < ([⟨some "d1.txt", some [("Business Proposal", 1)], none, none⟩] : List Doc).countP
            (fun d => isMatched [("d1", "Business Proposal")] d) then
           some ((([⟨some "d1.txt", some [("Business Proposal", 1)], none, none⟩] : List Doc).countP
               (fun d => matchedAndCorrect [("d1", "Business Proposal")] d) : ℚ)
             / (([⟨some "d1.txt", some [("Business Proposal", 1)], none, none⟩] : List Doc).countP
               (fun d => isMatched [("d1", "Business Proposal")] d) : ℚ) * 100)
         else none) ∧
    categoryPercentage [("d1", "Business Proposal")]
        [⟨some "d1.txt", some [("Business Proposal", 1)], none, none⟩]
        "Business Proposal"
      = (if 0 < ([⟨some "d1.txt", some [("Business Proposal", 1)], none, none⟩] : List Doc).countP
            (fun d => inRefCat [("d1", "Business Proposal")] d "Business Proposal") then
           (([⟨some "d1.txt", some [("Business Proposal", 1)], none, none⟩] : List Doc).countP
               (fun d => inRefCatCorrect [("d1", "Business Proposal")] d "Business Proposal") : ℚ)
             / (([⟨some "d1.txt", some [("Business Proposal", 1)], none, none⟩] : List Doc).countP
               (fun d => inRefCat [("d1", "Business Proposal")] d "Business Proposal") : ℚ) * 100
         else 0) :=
  accuracy_stripped_filename_and_reference_grouping
    [("d1", "Business Proposal")]
    [⟨some "d1.txt", some [("Business Proposal", 1)], none, none⟩]
    "Business Proposal" (by decide)

/-- Claim C3, counterexample.  Reference rows label d1 as Business
Proposal and d2 as Technical Documentation; both documents are predicted
Technical Documentation.  Precision for Technical Documentation (among
matched documents predicted as it) is 1/2 = 50 percent, but the code
reports 100 percent for that category, because it groups by the reference
label (recall), not by the predicted label (precision). -/
theorem per_category_stat_is_recall_not_precision_counterexample :
    categoryPercentage
        [("d1", "Business Proposal"), ("d2", "Technical Documentation")]
        [⟨some "d1.txt", some [("Technical Documentation", 1)], none, none⟩,
         ⟨some "d2.txt", some [("Technical Documentation", 1)], none, none⟩]
        "Technical Documentation" = 100 ∧
    specPrecisionPct
        [("d1", "Business Proposal"), ("d2", "Technical Documentation")]
        [⟨some "d1.txt", some [("Technical Documentation", 1)], none, none⟩,
         ⟨some "d2.txt", some [("Technical Documentation", 1)], none, none⟩]
        "Technical Documentation" = 50 := by
  constructor
  · have h1 : (accuracyFold
        [("d1", "Business Proposal"), ("d2", "Technical Documentation")]
        [⟨some "d1.txt", some [("Technical Documentation", 1)], none, none⟩,
         ⟨some "d2.txt", some [("Technical Documentation", 1)], none, none⟩]).catCorrect
        "Technical Documentation" = 1 := by decide
    have h2 : (accuracyFold
        [("d1", "Business Proposal"), ("d2", "Technical Documentation")]
        [⟨some "d1.txt", some [("Technical Documentation", 1)], none, none⟩,
         ⟨some "d2.txt", some [("Technical Documentation", 1)], none, none⟩]).catTotal
        "Technical Documentation" = 1 := by decide
    simp only [categoryPercentage]
    rw [h1, h2]
    norm_num
  · have h3 : (([⟨some "d1.txt", some [("Technical Documentation", 1)], none, none⟩,
         ⟨some "d2.txt", some [("Technical Documentation", 1)], none, none⟩] : List Doc).filter
        (fun d => isMatched
          [("d1", "Business Proposal"), ("d2", "Technical Documentation")] d
            && predCatOf d == "Technical Documentation")).length = 2 := by decide
    have h4 : ((([⟨some "d1.txt", some [("Technical Documentation", 1)], none, none⟩,
         ⟨some "d2.txt", some [("Technical Documentation", 1)], none, none⟩] : List Doc).filter
        (fun d => isMatched
          [("d1", "Business Proposal"), ("d2", "Technical Documentation")] d
            && predCatOf d == "Technical Documentation")).filter
        (fun d => refCatOf
          [("d1", "Business Proposal"), ("d2", "Technical Documentation")] d
            == some "Technical Documentation")).length = 1 := by decide
    simp only [specPrecisionPct]
    rw [h3, h4]
    norm_num

end DocAnalytics
namespace DocAnalytics

/-! ## Word-cloud counting and sorting -/

theorem countValue_bumpCount (counts : List (String × ℕ)) (w w' : String) :
    countValue (bumpCount counts w) w'
      = countValue counts w' + (if w' = w then 1 else 0) := by
  by_cases hany : counts.any (fun p => p.1 == w) = true
  · rw [bumpCount, if_pos hany, countValue, List.find?_map]
    have hcomp : ((fun p : String × ℕ => p.1 == w')
        ∘ fun p : String × ℕ => if p.1 == w then (p.1, p.2 + 1) else p)
        = fun p : String × ℕ => p.1 == w' := by
      funext p
      by_cases hw : p.1 = w <;> simp [hw]
    rw [hcomp]
    cases hf : counts.find? (fun p => p.1 == w') with
    | none =>
        by_cases hww : w' = w
        · subst hww
          obtain ⟨x, hx, hpx⟩ := List.any_eq_true.mp hany
          have hsome : (counts.find? (fun p : String × ℕ => p.1 == w')).isSome :=
            List.find?_isSome.mpr ⟨x, hx, hpx⟩
          rw [hf] at hsome
          simp at hsome
        · simp [countValue, hf, hww]
    | some e =>
        have he := List.find?_some hf
        simp only [beq_iff_eq] at he
        by_cases hww : w' = w
        · subst hww
          simp [countValue, hf, he]
        · simp [countValue, hf, he, hww]
  · rw [bumpCount, if_neg hany, countValue, List.find?_append]
    cases hf : counts.find? (fun p => p.1 == w') with
    | some e =>
        have he := List.find?_some hf
        have hmem := List.mem_of_find?_eq_some hf
        have hww : ¬ w' = w := by
          intro hww
          subst hww
          exact hany (List.any_eq_true.mpr ⟨e, hmem, he⟩)
        simp [countValue, hf, hww]
    | none =>
        by_cases hww : w' = w
        · subst hww
          simp [countValue, hf, List.find?]
        · simp [countValue, hf, List.find?, hww,
            (beq_eq_false_iff_ne.mpr (Ne.symm hww) : (w == w') = false)]

theorem countValue_wordCountsFold (category : String) (ws : List String) :
    ∀ (counts : List (String × ℕ)) (w : String),
      countValue
          (ws.foldl (fun c w' => if skipWord category w' then c else bumpCount c w') counts)
          w
        = countValue counts w + (ws.filter (fun w' => !skipWord category w')).count w := by
  induction ws with
  | nil => intro counts w; simp
  | cons x ws ih =>
      intro counts w
      rw [List.foldl_cons]
      by_cases hs : skipWord category x = true
      · rw [if_pos hs, ih, List.filter_cons_of_neg (by simp [hs])]
      · rw [if_neg hs, ih, List.filter_cons_of_pos (by simp [hs]),
          countValue_bumpCount, List.count_cons]
        by_cases hww : w = x
        · subst hww
          simp
          omega
        · simp [hww, beq_eq_false_iff_ne, Ne.symm hww]

theorem countValue_wordCountsFor (category : String) (ws : List String) (w : String) :
    countValue (wordCountsFor category ws) w
      = (ws.filter (fun w' => !skipWord category w')).count w := by
  have h := countValue_wordCountsFold category ws [] w
  simpa [wordCountsFor, countValue] using h

theorem insertDescEntry_perm (x : String × ℕ) :
    ∀ l : List (String × ℕ), (insertDescEntry x l).Perm (x :: l) := by
  intro l
  induction l with
  | nil => simp [insertDescEntry]
  | cons y ys ih =>
      rw [insertDescEntry]
      by_cases h : y.2 ≤ x.2
      · simp [h]
      · rw [if_neg h]
        exact ((ih.cons y).trans (List.Perm.swap x y ys))

theorem sortDescEntries_perm (l : List (String × ℕ)) :
    (sortDescEntries l).Perm l := by
  induction l with
  | nil => simp [sortDescEntries]
  | cons x xs ih =>
      have : sortDescEntries (x :: xs) = insertDescEntry x (sortDescEntries xs) := rfl
      rw [this]
      exact (insertDescEntry_perm x (sortDescEntries xs)).trans (ih.cons x)

theorem mem_insertDescEntry {a x : String × ℕ} {l : List (String × ℕ)}
    (h : a ∈ insertDescEntry x l) : a = x ∨ a ∈ l :=
  by simpa using (insertDescEntry_perm x l).mem_iff.mp h

theorem insertDescEntry_sorted (x : String × ℕ) :
    ∀ l : List (String × ℕ),
      l.Pairwise (fun a b => b.2 ≤ a.2) →
      (insertDescEntry x l).Pairwise (fun a b => b.2 ≤ a.2) := by
  intro l
  induction l with
  | nil => intro _; simp [insertDescEntry]
  | cons y ys ih =>
      intro h
      rw [List.pairwise_cons] at h
      rw [insertDescEntry]
      by_cases hxy : y.2 ≤ x.2
      · rw [if_pos hxy]
        refine List.Pairwise.cons ?_ (List.Pairwise.cons h.1 h.2)
        intro b hb
        rcases List.mem_cons.mp hb with rfl | hb2
        · exact hxy
        · exact le_trans (h.1 b hb2) hxy
      · rw [if_neg hxy]
        refine List.Pairwise.cons ?_ (ih h.2)
        intro b hb
        rcases mem_insertDescEntry hb with rfl | hb2
        · exact le_of_lt (lt_of_not_le hxy)
        · exact h.1 b hb2

theorem sortDescEntries_sorted (l : List (String × ℕ)) :
    (sortDescEntries l).Pairwise (fun a b => b.2 ≤ a.2) := by
  induction l with
  | nil => simp [sortDescEntries]
  | cons x xs ih => exact insertDescEntry_sorted x (sortDescEntries xs) ih

/-- Claim C6, amended.  For every category word cloud, the counted tokens
are the preprocessed tokens of the combined member text (lowercased, with
stop words, tokens of length at most 2 and purely numeric tokens removed)
MINUS the tokens the loop additionally skips: tokens equal to the category
name (case-insensitively) and tokens longer than 3 characters contained in
the lowercased category name.  Each reported entry carries the exact
frequency of its token in that filtered list, the entries are exactly the
counted (token, frequency) pairs, they are ordered by descending
frequency, and the rendered list is the top-N prefix of that order. -/
theorem wordcloud_counts_with_category_name_filter (category text : String) :
    (∀ w, countValue (wordCountsFor category (preprocessText text)) w
        = ((preprocessText text).filter (fun w' => !skipWord category w')).count w) ∧
    (wordCloudFor category text).Perm (wordCountsFor category (preprocessText text)) ∧
    (wordCloudFor category text).Pairwise (fun a b => b.2 ≤ a.2) ∧
    (∀ n, displayWords (wordCountsFor category (preprocessText text)) n
        = (wordCloudFor category text).take n) :=
  ⟨fun w => countValue_wordCountsFor category (preprocessText text) w,
   sortDescEntries_perm _, sortDescEntries_sorted _, fun _ => rfl⟩

/-- Claim C6, counterexample.  The token "legal" survives every filter the
claim lists (lowercased, not a stop word, longer than 2 characters, not
numeric) and is the most frequent token of the category text (3
occurrences against 1 for "contract"), yet the word cloud computed for
category "Legal Document" omits it entirely, because the loop also skips
tokens contained in the category name. -/
theorem category_name_tokens_excluded_counterexample :
    generateWordClouds (fun _ _ => 50) [("doc1", "Legal Document")]
      [⟨some "doc1.txt", some [("Legal Document", 1)], some 100,
        some "Legal legal LEGAL contract"⟩]
      = [("Legal Document", [("contract", 1)])] ∧
    (preprocessText "Legal legal LEGAL contract").count "legal" = 3 ∧
    STOP_WORDS.contains "legal" = false ∧ 2 < "legal".length ∧
    "legal".data.all Char.isDigit = false :=
  ⟨by decide, by decide, by decide, by decide, by decide⟩

/-! ## Placeholder word clouds -/

theorem wordsForCategory_ne_nil (cat : String) : wordsForCategory cat ≠ [] := by
  cases h : COMMON_WORDS.find? (fun p => p.1 == cat) with
  | some p =>
      have hp := List.mem_of_find?_eq_some h
      have hall : ∀ q ∈ COMMON_WORDS, q.2 ≠ [] := by decide
      simp only [wordsForCategory, h]
      exact hall p hp
  | none =>
      simp only [wordsForCategory, h]
      decide

theorem placeholder_value (vals : String → String → ℕ) :
    ∀ (cats : List String) (cat : String), cat ∈ cats →
      lookupCloud (generatePlaceholderWordClouds vals cats) cat
        = (wordsForCategory cat).map (fun w => (w, vals cat w)) := by
  intro cats
  induction cats with
  | nil => intro cat h; cases h
  | cons c cs ih =>
      intro cat h
      by_cases hc : c = cat
      · subst hc
        simp [generatePlaceholderWordClouds, lookupCloud, List.find?]
      · rcases List.mem_cons.mp h with rfl | h2
        · exact absurd rfl (fun hh => hc hh.symm)
        · have step : lookupCloud (generatePlaceholderWordClouds vals (c :: cs)) cat
              = lookupCloud (generatePlaceholderWordClouds vals cs) cat := by
            simp [generatePlaceholderWordClouds, lookupCloud, List.find?,
              (beq_eq_false_iff_ne.mpr hc : (c == cat) = false)]
          rw [step]
          exact ih cat h2

theorem placeholder_mem_ne_nil (vals : String → String → ℕ) (cats : List String) :
    ∀ p ∈ generatePlaceholderWordClouds vals cats, p.2 ≠ [] := by
  intro p hp
  rw [generatePlaceholderWordClouds] at hp
  obtain ⟨c, hc, rfl⟩ := List.mem_map.mp hp
  intro h
  exact wordsForCategory_ne_nil c (List.map_eq_nil.mp h)

theorem lookupCloud_placeholder_ne_nil (vals : String → String → ℕ)
    (cats : List String) (cat : String) (h : cat ∈ cats) :
    lookupCloud (generatePlaceholderWordClouds vals cats) cat ≠ [] := by
  rw [placeholder_value vals cats cat h]
  intro hh
  exact wordsForCategory_ne_nil cat (List.map_eq_nil.mp hh)

/-- Claim C7.  Every category key in the computed word-cloud data carries a
non-empty word list (the visualization never renders empty); when no
matched category groups exist the output is the placeholder set for the
default categories, when no document has content it is the placeholder set
for the matched categories, and a category none of whose member documents
has content receives the placeholder vocabulary for that category. -/
theorem generateWordClouds_never_empty_with_placeholder_fallback
    (vals : String → String → ℕ) (targets : List (String × String))
    (docs : List Doc) :
    (∀ p ∈ generateWordClouds vals targets docs, p.2 ≠ []) ∧
    (∀ g ∈ groupByTarget targets docs,
      docs.any hasContent = true →
      (g.2.filter hasContent).isEmpty = true →
      (g.1, lookupCloud
          (generatePlaceholderWordClouds vals
            ((groupByTarget targets docs).map Prod.fst)) g.1)
        ∈ generateWordClouds vals targets docs) ∧
    (docs.any hasContent = false →
      (groupByTarget targets docs).isEmpty = false →
      generateWordClouds vals targets docs
        = generatePlaceholderWordClouds vals
            ((groupByTarget targets docs).map Prod.fst)) := by
  by_cases h0 : (groupByTarget targets docs).isEmpty = true
  · have hout : generateWordClouds vals targets docs
        = generatePlaceholderWordClouds vals DEFAULT_CATEGORIES := by
      simp [generateWordClouds, h0]
    refine ⟨?_, ?_, ?_⟩
    · rw [hout]
      exact placeholder_mem_ne_nil vals DEFAULT_CATEGORIES
    · intro g hg _ _
      rw [List.isEmpty_iff.mp h0] at hg
      cases hg
    · intro _ hne
      rw [h0] at hne
      cases hne
  · have h0f : (groupByTarget targets docs).isEmpty = false := by
      cases hh : (groupByTarget targets docs).isEmpty
      · rfl
      · exact absurd hh h0
    by_cases h1 : docs.any hasContent = true
    · have hout : generateWordClouds vals targets docs
          = (groupByTarget targets docs).map (fun g =>
              if (g.2.filter hasContent).isEmpty then
                (g.1, lookupCloud
                  (generatePlaceholderWordClouds vals
                    ((groupByTarget targets docs).map Prod.fst)) g.1)
              else
                (g.1,
                  if (wordCloudFor g.1
                      (joinSpace ((g.2.filter hasContent).map
                        (fun d => d.content.getD "")))).isEmpty then
                    lookupCloud
                      (generatePlaceholderWordClouds vals
                        ((groupByTarget targets docs).map Prod.fst)) g.1
                  else wordCloudFor g.1
                    (joinSpace ((g.2.filter hasContent).map
                      (fun d => d.content.getD ""))))) := by
        simp only [generateWordClouds, h0f, h1, Bool.not_true, if_neg,
          Bool.false_eq_true, not_false_iff, if_false]
      refine ⟨?_, ?_, ?_⟩
      · intro p hp
        rw [hout] at hp
        obtain ⟨g, hg, rfl⟩ := List.mem_map.mp hp
        have hkey : g.1 ∈ (groupByTarget targets docs).map Prod.fst :=
          List.mem_map.mpr ⟨g, hg, rfl⟩
        by_cases hw : (g.2.filter hasContent).isEmpty = true
        · simp only [hw, if_pos]
          exact lookupCloud_placeholder_ne_nil vals _ g.1 hkey
        · simp only [hw, Bool.false_eq_true, if_neg, not_false_iff]
          by_cases hwc : (wordCloudFor g.1
              (joinSpace ((g.2.filter hasContent).map
                (fun d => d.content.getD "")))).isEmpty = true
          · simp only [hwc, if_pos]
            exact lookupCloud_placeholder_ne_nil vals _ g.1 hkey
          · simp only [hwc, Bool.false_eq_true, if_neg, not_false_iff]
            intro hh
            rw [hh] at hwc
            exact hwc rfl

      · intro g hg _ hempty
        rw [hout]
        refine List.mem_map.mpr ⟨g, hg, ?_⟩
        simp only [hempty, if_pos]
      · intro hnone _
        rw [hnone] at h1
        simp at h1
    · have h1f : docs.any hasContent = false := by
        cases hh : docs.any hasContent
        · rfl
        · exact absurd hh h1
      have hout : generateWordClouds vals targets docs
          = generatePlaceholderWordClouds vals
              ((groupByTarget targets docs).map Prod.fst) := by
        simp [generateWordClouds, h0f, h1f]
      refine ⟨?_, ?_, ?_⟩
      · rw [hout]
        exact placeholder_mem_ne_nil vals _
      · intro g hg hcontent _
        rw [hcontent] at h1f
        cases h1f
      · intro _ _
        exact hout

/-- Witness for claim C7: the first entry of the empty-corpus word clouds
is non-empty, and a corpus whose only matched document has no content gets
exactly the placeholder clouds of its matched category. -/
theorem generateWordClouds_never_empty_with_placeholder_fallback_witness :
    ((generateWordClouds (fun _ _ => 50) [] []).get ⟨0, by decide⟩).2 ≠ [] ∧
    generateWordClouds (fun _ _ => 50) [("d1", "Legal Document")]
        [⟨some "d1.txt", some [("Legal Document", 1)], none, none⟩]
      = generatePlaceholderWordClouds (fun _ _ => 50)
          ((groupByTarget [("d1", "Legal Document")]
            [⟨some "d1.txt", some [("Legal Document", 1)], none, none⟩]).map
            Prod.fst) :=
  ⟨(generateWordClouds_never_empty_with_placeholder_fallback
      (fun _ _ => 50) [] []).1 _ (List.get_mem _ _ _),
   (generateWordClouds_never_empty_with_placeholder_fallback
      (fun _ _ => 50) [("d1", "Legal Document")]
      [⟨some "d1.txt", some [("Legal Document", 1)], none, none⟩]).2.2
      (by decide) (by decide)⟩

end DocAnalytics
namespace DocAnalytics

/-- Claim C8.  With the backend duplicate response modelled from the spec
(the backend is not part of this repository), the HTTP 409 error the
formatter delivers to the caller carries the existing document id and
filename in its details, the duplicate notice renders for it, and in
general the notice renders only when both a (truthy) id and a (truthy)
filename are present in the error details. -/
theorem duplicate_error_carries_id_and_filename
    (existingId : Nat) (existingFilename : String)
    (h1 : existingId ≠ 0) (h2 : existingFilename ≠ "") :
    (formatErrorMessage409 (duplicateConflictBody existingId existingFilename)).details
      = some ⟨some existingId, some existingFilename, none⟩ ∧
    rendersDuplicateNotice
      (formatErrorMessage409 (duplicateConflictBody existingId existingFilename))
      = true ∧
    (∀ e : AppError, rendersDuplicateNotice e = true →
      (duplicateIdOf e).isSome = true ∧ (duplicateFilenameOf e).isSome = true) := by
  refine ⟨rfl, ?_, ?_⟩
  · simp [rendersDuplicateNotice, duplicateIdOf, duplicateFilenameOf,
      formatErrorMessage409, duplicateConflictBody, errorDetailOf,
      truthyNat, truthyStr, h1, h2]
  · intro e he
    simp only [rendersDuplicateNotice, Bool.and_eq_true] at he
    exact he

/-- Witness for claim C8 at a concrete existing document. -/
theorem duplicate_error_carries_id_and_filename_witness :
    (formatErrorMessage409 (duplicateConflictBody 7 "report.pdf")).details
      = some ⟨some 7, some "report.pdf", none⟩ ∧
    rendersDuplicateNotice
      (formatErrorMessage409 (duplicateConflictBody 7 "report.pdf")) = true ∧
    (∀ e : AppError, rendersDuplicateNotice e = true →
      (duplicateIdOf e).isSome = true ∧ (duplicateFilenameOf e).isSome = true) :=
  duplicate_error_carries_id_and_filename 7 "report.pdf"
    (by decide) (by decide)

end DocAnalytics
